import Mathlib

/-!
Verification of the denoflare excerpts: the config loader
(src/cli/config_loader.ts), the tailweb worker request handler
(src/tailweb/tailweb_worker.ts), and the remote KV namespace adapter
(ApiKVNamespace).  Each TypeScript function is embedded as an executable
Lean definition; external effects (the Cloudflare listAccounts call, the
environment, the file system, URL parsing, the upstream KV HTTP API) are
passed in as function parameters, so every definition stays a pure function
of its inputs.
-/

namespace Denoflare

/-! ## Data model (src/common/config.ts as used by the excerpts)

A `Profile` is a credential pair, optionally flagged as the default.
A `Config` carries its profiles as an insertion-ordered association list,
mirroring a JavaScript object: `Object.values` is `List.map Prod.snd` and
indexing is first-match lookup. -/

structure Profile where
  accountId : String
  apiToken : String
  default : Bool := false
deriving DecidableEq, Repr

structure Script where
  profile : Option String := none
deriving DecidableEq, Repr

structure Config where
  profiles : List (String × Profile) := []
  scripts : List (String × Script) := []
deriving DecidableEq, Repr

structure Account where
  id : String
  name : String
deriving DecidableEq, Repr

/-- CLI options consumed by the config loader: `--account-id`, `--api-token`,
`--profile` (each an optional string, `parseOptionalStringOption`), plus the
`verbose` flag. -/
structure CliOptions where
  accountId : Option String := none
  apiToken : Option String := none
  profile : Option String := none
  verbose : Bool := false
deriving DecidableEq, Repr

/-! ## Character-list models of the JavaScript string operations used
by the excerpts.  JS strings are modelled as Lean `String` (a `List Char`),
so every operation is kernel-computable. -/

/-- `pre` is a prefix of `l` (model of `String.prototype.startsWith` at
position 0, on character lists). -/
def isPrefixList : List Char → List Char → Bool
  | [], _ => true
  | _ :: _, [] => false
  | p :: ps, c :: cs => p == c && isPrefixList ps cs

/-- Model of `String.prototype.includes` over character lists: `pat` occurs
somewhere in the list. -/
def containsSubstr (pat : List Char) : List Char → Bool
  | [] => pat.isEmpty
  | c :: cs => isPrefixList pat (c :: cs) || containsSubstr pat cs

/-- Model of `String.prototype.replace` with a string pattern: only the
first occurrence of `pat` is replaced by `rep`; without an occurrence the
list is returned unchanged. -/
def replaceFirstList (pat rep : List Char) : List Char → List Char
  | [] => if isPrefixList pat [] then rep else []
  | c :: cs =>
    if isPrefixList pat (c :: cs) then rep ++ (c :: cs).drop pat.length
    else c :: replaceFirstList pat rep cs

/-- `s.startsWith(pre)` for JS strings. -/
def strStartsWith (s pre : String) : Bool := isPrefixList pre.toList s.toList

/-- `s.includes(pat)` for JS strings. -/
def strIncludes (s pat : String) : Bool := containsSubstr pat.toList s.toList

/-- `s.replace(pat, rep)` for JS strings: first occurrence only. -/
def strReplaceFirst (s pat rep : String) : String :=
  String.mk (replaceFirstList pat.toList rep.toList s.toList)

/-- `s.substring(n)` / drop the first `n` characters. -/
def strDropChars (s : String) (n : Nat) : String := String.mk (s.toList.drop n)

/-- Model of `String.prototype.trim` over the core whitespace characters. -/
def isWsChar (c : Char) : Bool := c == ' ' || c == '\t' || c == '\n' || c == '\r'

/-- `s.trim()` for JS strings: strip leading and trailing whitespace. -/
def trimChars (s : String) : String :=
  String.mk (((s.toList.dropWhile isWsChar).reverse.dropWhile isWsChar).reverse)

/-! ## findProfile (src/cli/config_loader.ts lines 139-180) -/

/-- An optional CLI string option is present when it is a string of positive
length (`typeof v === 'string' && v.length > 0`). -/
def optStringPresent : Option String → Bool
  | some s => decide (0 < s.length)
  | none => false

/-- Object indexing `profiles[name]`: first entry with the given key. -/
def lookupProfile (profiles : List (String × Profile)) (name : String) :
    Option Profile :=
  (profiles.find? (fun p => p.fst == name)).map Prod.snd

/-- The `--api-token` branch of `findProfile` (lines 142-159): with a
non-empty `--account-id` the two options form the profile directly;
otherwise the account id is located through `listAccounts`.  Any failure
inside the `try` block (the call itself, zero accounts, several accounts)
is caught and rethrown as the single wrapper error. -/
def cliApiTokenProfile (listAccounts : String → Except String (List Account))
    (accountIdOpt : Option String) (apiToken : String) : Except String Profile :=
  match accountIdOpt with
  | some accountId =>
    if 0 < accountId.length then .ok { accountId, apiToken }
    else cliLocateAccount listAccounts apiToken
  | none => cliLocateAccount listAccounts apiToken
where
  cliLocateAccount (listAccounts : String → Except String (List Account))
      (apiToken : String) : Except String Profile :=
    match listAccounts apiToken with
    | .ok [a] => .ok { accountId := a.id, apiToken }
    | _ => .error "Failed locating account-id from api-token"

/-- The `--profile` branch (lines 162-167): an invalid name or a name not in
the config is an error, otherwise the named profile is returned. -/
def namedProfileLookup (isValidProfileName : String → Bool)
    (profiles : List (String × Profile)) (name : String) :
    Except String (Option Profile) :=
  if isValidProfileName name then
    match lookupProfile profiles name with
    | some p => .ok (some p)
    | none => .error ("Unable to find profile " ++ name ++ " in config")
  else .error ("Bad profile name: " ++ name)

/-- The script-profile branch (lines 168-173).  The source's error message
interpolates the (undefined) lookup result, hence the literal `undefined`. -/
def scriptProfileLookup (isValidProfileName : String → Bool)
    (profiles : List (String × Profile)) (name : String) :
    Except String (Option Profile) :=
  if isValidProfileName name then
    match lookupProfile profiles name with
    | some p => .ok (some p)
    | none => .error "Unable to find profile undefined in config"
  else .error ("Bad profile name: " ++ name)

/-- `script && script.profile`: the declared profile name, when the script is
given and the name is a non-empty (truthy) string. -/
def scriptProfileName : Option Script → Option String
  | some s =>
    match s.profile with
    | some sp => if 0 < sp.length then some sp else none
    | none => none
  | none => none

/-- The fallback selection (lines 174-179): no profiles yields `undefined`;
a unique profile flagged default wins; a unique profile wins; anything else
is an error naming both counts. -/
def defaultProfileSelect (profiles : List (String × Profile)) :
    Except String (Option Profile) :=
  let profilesArr := profiles.map Prod.snd
  if profilesArr.length = 0 then .ok none
  else
    let defaultProfiles := profilesArr.filter fun v => v.default
    match defaultProfiles, profilesArr with
    | [d], _ => .ok (some d)
    | _, [p] => .ok (some p)
    | dps, arr =>
      .error ("Unable to find profile, " ++ toString arr.length ++
        " profiles in config, and " ++ toString dps.length ++ " marked as default")

/-- `findProfile` once the api-token branch is ruled out: `--profile`, then
the script-declared profile, then the default selection. -/
def findProfileNoCli (isValidProfileName : String → Bool) (config : Config)
    (options : CliOptions) (script : Option Script) :
    Except String (Option Profile) :=
  match options.profile with
  | some name => namedProfileLookup isValidProfileName config.profiles name
  | none =>
    match scriptProfileName script with
    | some sp => scriptProfileLookup isValidProfileName config.profiles sp
    | none => defaultProfileSelect config.profiles

/-- `findProfile` (lines 139-180).  `isValidProfileName`
(src/common/config_validation.ts, not among the staged files) and
`listAccounts` (the Cloudflare API call) are passed in as parameters. -/
def findProfile (isValidProfileName : String → Bool)
    (listAccounts : String → Except String (List Account))
    (config : Config) (options : CliOptions) (script : Option Script) :
    Except String (Option Profile) :=
  match options.apiToken with
  | some apiToken =>
    if 0 < apiToken.length then
      (cliApiTokenProfile listAccounts options.accountId apiToken).map some
    else findProfileNoCli isValidProfileName config options script
  | none => findProfileNoCli isValidProfileName config options script

/-- `resolveProfile` (lines 84-88): a `findProfile` result of `undefined` is
an error; otherwise both credential strings go through `resolveString`
(regex-file indirection, abstracted as the parameter `resolveStr`). -/
def resolveProfile (isValidProfileName : String → Bool)
    (listAccounts : String → Except String (List Account))
    (resolveStr : String → Except String String)
    (config : Config) (options : CliOptions) (script : Option Script) :
    Except String Profile :=
  match findProfile isValidProfileName listAccounts config options script with
  | .error e => .error e
  | .ok none => .error "Unable to find profile, no profiles in config"
  | .ok (some p) =>
    match resolveStr p.accountId, resolveStr p.apiToken with
    | .ok accountId, .ok apiToken => .ok { accountId, apiToken }
    | .error e, _ => .error e
    | _, .error e => .error e

/-! ## resolveBinding (src/cli/config_loader.ts lines 60-82) -/

/-- A binding is a named runtime value: literal text or a secret (the two
variants the excerpt distinguishes via `isTextBinding` / `isSecretBinding`). -/
inductive Binding
  | text (value : String)
  | secret (secret : String)
deriving DecidableEq, Repr

structure AwsCredentials where
  accessKeyId : String
  secretAccessKey : String
deriving DecidableEq, Repr

/-- The pushId step of `resolveBinding` (lines 74-78): with no `pushId`, a
value still containing the placeholder is an error; with one, the first
occurrence is substituted. -/
def resolvePushStep (value : String) (pushId : Option String) :
    Except String Binding :=
  match pushId with
  | none =>
    if strIncludes value "${pushId}" then .error "Cannot resolve: pushId"
    else .ok (.text value)
  | some q => .ok (.text (strReplaceFirst value "${pushId}" q))

/-- `resolveBinding` (lines 60-82).  A secret of the form `aws:<profile>`
(the regex `^aws:(.*?)$`) is resolved through the AWS credentials file,
abstracted as the parameter `loadAws`; a text binding gets `${localPort}`
then `${pushId}` substituted, each erroring when the placeholder is present
but the argument is not; any other binding is returned unchanged. -/
def resolveBinding (loadAws : String → Except String AwsCredentials)
    (binding : Binding) (localPort : Option Nat) (pushId : Option String) :
    Except String Binding :=
  match binding with
  | .secret secret =>
    if strStartsWith secret "aws:" then
      match loadAws (strDropChars secret 4) with
      | .ok creds => .ok (.secret (creds.accessKeyId ++ ":" ++ creds.secretAccessKey))
      | .error e => .error e
    else .ok (.secret secret)
  | .text value =>
    match localPort with
    | none =>
      if strIncludes value "${localPort}" then .error "Cannot resolve: localPort"
      else resolvePushStep value pushId
    | some p => resolvePushStep (strReplaceFirst value "${localPort}" (toString p)) pushId

/-! ## loadConfig and findConfigFilePath (src/cli/config_loader.ts 20-50,
115-137).  `Deno.env.get` and `fileExists` can raise; the only error the
source treats specially is `Deno.errors.PermissionDenied`. -/

/-- An error raised by a Deno runtime call: permission denied, or anything
else. -/
inductive DenoError
  | permissionDenied (msg : String)
  | other (msg : String)
deriving DecidableEq, Repr

/-- The env-var enhancement step of `loadConfig` (lines 27-47), applied to
the config loaded from the file (or `{}`).  `env` models `Deno.env.get`:
`none` is an unset variable.  Only a config with zero profiles consults the
environment; a `PermissionDenied` from either read is swallowed; both
trimmed values must be non-empty for the single `env` profile to be
installed (replacing the empty profile map). -/
def loadConfig (env : String → Except DenoError (Option String))
    (fileConfig : Config) : Except DenoError Config :=
  if fileConfig.profiles.length = 0 then
    match env "CF_ACCOUNT_ID" with
    | .error (.permissionDenied _) => .ok fileConfig
    | .error e => .error e
    | .ok a =>
      match env "CF_API_TOKEN" with
      | .error (.permissionDenied _) => .ok fileConfig
      | .error e => .error e
      | .ok t =>
        let cfAccountId := trimChars (a.getD "")
        let cfApiToken := trimChars (t.getD "")
        if 0 < cfAccountId.length && 0 < cfApiToken.length then
          .ok { fileConfig with
                profiles := [("env", { accountId := cfAccountId, apiToken := cfApiToken })] }
        else .ok fileConfig
  else .ok fileConfig

/-- The directory walk of `findConfigFilePath` (lines 117-128).  A directory
is its component list deepest-first, so the parent of `d :: ds` is `ds` and
the root is `[]` (where `resolve(dir, '..') === dir` ends the walk); the
candidate file path is `.denoflare` prepended to the directory.  `fe` models
`fileExists` and may raise. -/
def findConfigLoop (fe : List String → Except DenoError Bool) :
    List String → Except DenoError (Option (List String))
  | [] =>
    match fe [".denoflare"] with
    | .error e => .error e
    | .ok true => .ok (some [".denoflare"])
    | .ok false => .ok none
  | d :: ds =>
    match fe (".denoflare" :: d :: ds) with
    | .error e => .error e
    | .ok true => .ok (some (".denoflare" :: d :: ds))
    | .ok false => findConfigLoop fe ds

/-- `findConfigFilePath` (lines 115-137): the walk, with `PermissionDenied`
caught and mapped to `undefined` and every other error rethrown. -/
def findConfigFilePath (fe : List String → Except DenoError Bool)
    (cwd : List String) : Except DenoError (Option (List String)) :=
  match findConfigLoop fe cwd with
  | .ok r => .ok r
  | .error (.permissionDenied _) => .ok none
  | .error e => .error e

/-! ## The tailweb worker fetch handler (src/tailweb/tailweb_worker.ts
lines 4-31).  The embedding returns the externally visible action the
handler takes; `parseUrl` models `new URL(s)` on the string built for the
`/fetch/` branch (`none` models a parse failure, which in the source throws). -/

/-- The parts of a parsed URL the handler reads: `origin` for the
same-origin check and `href` for the error message interpolation. -/
structure UrlInfo where
  origin : String
  href : String
deriving DecidableEq, Repr

/-- The incoming request as the handler observes it: the URL pathname, the
method, the headers (entries as iterated, names lowercased by the platform),
and the `cf-connecting-ip` header value. -/
structure RequestIn where
  pathname : String
  method : String
  headers : List (String × String)
  cfConnectingIp : Option String
deriving DecidableEq, Repr

/-- What the handler does with a request: serve the HTML page, proxy the
app.js asset, forward to an upstream URL with a method and header list,
throw a `Response` (status and body) as an exception, fail parsing the
constructed URL, or answer the hello fallback. -/
inductive FetchOutcome
  | htmlPage
  | appJs
  | proxied (url : String) (method : String) (headers : List (String × String))
  | thrownResponse (status : Nat) (body : String)
  | urlParseFailure
  | hello (ip : Option String)
deriving DecidableEq, Repr

/-- The `fetch` handler (lines 6-29).  On the `/fetch/` branch the upstream
URL string is `https://` plus the pathname after the prefix; only the origin
`https://api.cloudflare.com` is proxied, with the `cf-`-prefixed request
headers filtered out; any other origin makes the source execute
`throw new Response(..., { status: 400 })` — the response is thrown as an
exception, not returned. -/
def tailwebFetch (parseUrl : String → Option UrlInfo) (req : RequestIn) :
    FetchOutcome :=
  if req.pathname = "/" then .htmlPage
  else if req.pathname = "/app.js" then .appJs
  else if strStartsWith req.pathname "/fetch/" then
    let fetchUrlStr := "https://" ++ strDropChars req.pathname 7
    match parseUrl fetchUrlStr with
    | none => .urlParseFailure
    | some fetchUrl =>
      if fetchUrl.origin = "https://api.cloudflare.com" then
        .proxied fetchUrlStr req.method
          (req.headers.filter fun v => !(strStartsWith v.fst "cf-"))
      else .thrownResponse 400 ("Unable to fetch " ++ fetchUrl.href)
  else .hello req.cfConnectingIp

/-! ## ApiKVNamespace (src/unnamed/part_000).  The upstream HTTP API
(`getKeyValue`, `getKeyMetadata`) is passed in as functions; bytes are
`List Nat`.  A `json` read returns the bytes tagged as to-be-JSON-parsed
(`JSON.parse(new Bytes(bytes).utf8())` happens outside the adapter's own
logic and is kept symbolic). -/

/-- The `type` field of KV get options. -/
inductive KvType
  | text
  | json
  | arrayBuffer
  | stream
deriving DecidableEq, Repr

structure KvGetOpts where
  type : KvType
deriving DecidableEq, Repr

/-- A value produced by a successful adapter read. -/
inductive KvValue
  | arrayBufferOf (bytes : List Nat)
  | jsonOf (bytes : List Nat)
deriving DecidableEq, Repr

structure KvValueAndMetadata where
  value : KvValue
  metadata : Option String
deriving DecidableEq, Repr

/-- `ApiKVNamespace.get` (part_000 lines 30-40): an absent key is `null`
before any type dispatch; a present key succeeds only for the `arrayBuffer`
and `json` types and otherwise throws the not-implemented error. -/
def kvGet (getKeyValue : String → Option (List Nat)) (key : String)
    (opts : Option KvGetOpts) : Except String (Option KvValue) :=
  match getKeyValue key with
  | none => .ok none
  | some bytes =>
    match opts with
    | some o =>
      if o.type = .arrayBuffer then .ok (some (.arrayBufferOf bytes))
      else if o.type = .json then .ok (some (.jsonOf bytes))
      else .error ("ApiKVNamespace.get not implemented. key=string " ++ key)
    | none => .error ("ApiKVNamespace.get not implemented. key=string " ++ key)

/-- `ApiKVNamespace.getWithMetadata` (part_000 lines 47-62): same shape as
`get`, additionally reading the key metadata (`null` when absent) for the
two supported types. -/
def kvGetWithMetadata (getKeyValue : String → Option (List Nat))
    (getKeyMetadata : String → Option String) (key : String)
    (opts : Option KvGetOpts) : Except String (Option KvValueAndMetadata) :=
  match getKeyValue key with
  | none => .ok none
  | some bytes =>
    let metadata := getKeyMetadata key
    match opts with
    | some o =>
      if o.type = .arrayBuffer then .ok (some { value := .arrayBufferOf bytes, metadata })
      else if o.type = .json then .ok (some { value := .jsonOf bytes, metadata })
      else .error ("ApiKVNamespace.getWithMetadata not implemented. key=" ++ key)
    | none => .error ("ApiKVNamespace.getWithMetadata not implemented. key=" ++ key)

/-- `ApiKVNamespace.put` (part_000 lines 64-66): unconditionally throws. -/
def kvPut (_key : String) (_value : List Nat) (_opts : Option KvGetOpts) :
    Except String Unit :=
  .error "ApiKVNamespace.put not implemented."

/-- `ApiKVNamespace.delete` (part_000 lines 68-70): unconditionally throws. -/
def kvDelete (_key : String) : Except String Unit :=
  .error "ApiKVNamespace.delete not implemented."

/-- `ApiKVNamespace.list` (part_000 lines 72-74): unconditionally throws. -/
def kvList (_opts : Option KvGetOpts) : Except String Unit :=
  .error "ApiKVNamespace.list not implemented."

/-- The adapter's public key-value operations. -/
inductive KvOp
  | get
  | getWithMetadata
  | put
  | delete
  | list
deriving DecidableEq, Repr

/-- The result is an error whose message carries the adapter's
`not implemented.` marker. -/
def isUnimplementedError {α : Type} : Except String α → Bool
  | .error m => strIncludes m "not implemented."
  | .ok _ => false

/-- The operation raises a not-implemented error on every input (for `get`
and `getWithMetadata`, over every upstream behaviour as well). -/
def alwaysUnimplemented : KvOp → Prop
  | .get => ∀ gkv key opts, isUnimplementedError (kvGet gkv key opts) = true
  | .getWithMetadata =>
      ∀ gkv gkm key opts, isUnimplementedError (kvGetWithMetadata gkv gkm key opts) = true
  | .put => ∀ key value opts, isUnimplementedError (kvPut key value opts) = true
  | .delete => ∀ key, isUnimplementedError (kvDelete key) = true
  | .list => ∀ opts, isUnimplementedError (kvList opts) = true

/-- The claim that exactly two of the adapter's public operations are
always-unimplemented, as a set of operations of size two. -/
def exactlyTwoAlwaysUnimplemented : Prop :=
  ∃ S : Finset KvOp, S.card = 2 ∧ ∀ op, alwaysUnimplemented op ↔ op ∈ S

/-- The localPort half of the text-binding substitution (lines 68-73): the
value after the optional `${localPort}` replacement. -/
def substLocalPortStep : Option Nat → String → String
  | none, v => v
  | some p, v => strReplaceFirst v "${localPort}" (toString p)

/-- A concrete stand-in for `new URL(s)` covering the two URLs the sample
requests construct. -/
def demoParseUrl : String → Option UrlInfo := fun s =>
  if s = "https://api.cloudflare.com/client/v4/accounts" then
    some { origin := "https://api.cloudflare.com",
           href := "https://api.cloudflare.com/client/v4/accounts" }
  else if s = "https://evil.com/x" then
    some { origin := "https://evil.com", href := "https://evil.com/x" }
  else none

/-! ## Helper lemmas -/

/-- The result is an error (a thrown exception in the source). -/
def exceptIsError {α : Type} : Except String α → Bool
  | .error _ => true
  | .ok _ => false

theorem optStringPresent_false_cases {o : Option String}
    (h : optStringPresent o = false) :
    o = none ∨ ∃ s, o = some s ∧ ¬ 0 < s.length := by
  cases o with
  | none => exact Or.inl rfl
  | some s =>
    refine Or.inr ⟨s, rfl, ?_⟩
    simpa [optStringPresent] using h

/-- With no usable `--api-token`, `findProfile` is the non-CLI cascade. -/
theorem findProfile_eq_noCli (isValid : String → Bool)
    (la : String → Except String (List Account)) (config : Config)
    (options : CliOptions) (script : Option Script)
    (h : optStringPresent options.apiToken = false) :
    findProfile isValid la config options script
      = findProfileNoCli isValid config options script := by
  rcases optStringPresent_false_cases h with hn | ⟨s, hs, hlen⟩
  · simp [findProfile, hn]
  · simp [findProfile, hs, if_neg hlen]

/-! ## Claim C1 -/

/-- C1: `findProfile` (as used by `resolveProfile`) selects credentials by
precedence.  (1) A non-empty `--api-token` decides the result from the CLI
options alone (the config and the script are not consulted); (1a) with a
non-empty `--account-id` as well, the result is exactly those credentials.
(2) Otherwise a given `--profile` decides the result as the named lookup in
the config's profiles (the Cloudflare API and the script are not consulted).
(3) Otherwise a script-declared profile decides the result as its lookup.
(4) Otherwise the single/default selection over the config's profiles
decides. -/
theorem findProfile_precedence (isValid : String → Bool)
    (la la2 : String → Except String (List Account))
    (config config2 : Config) (options : CliOptions)
    (script script2 : Option Script) :
    (∀ t, options.apiToken = some t → 0 < t.length →
      findProfile isValid la config options script
        = (cliApiTokenProfile la options.accountId t).map some
      ∧ findProfile isValid la config options script
        = findProfile isValid la config2 options script2)
    ∧ (∀ t a, options.apiToken = some t → 0 < t.length →
        options.accountId = some a → 0 < a.length →
        findProfile isValid la config options script
          = .ok (some { accountId := a, apiToken := t }))
    ∧ (optStringPresent options.apiToken = false →
       ∀ name, options.profile = some name →
        findProfile isValid la config options script
          = namedProfileLookup isValid config.profiles name
        ∧ findProfile isValid la config options script
          = findProfile isValid la2 config options script2)
    ∧ (optStringPresent options.apiToken = false → options.profile = none →
       ∀ sp, scriptProfileName script = some sp →
        findProfile isValid la config options script
          = scriptProfileLookup isValid config.profiles sp)
    ∧ (optStringPresent options.apiToken = false → options.profile = none →
       scriptProfileName script = none →
        findProfile isValid la config options script
          = defaultProfileSelect config.profiles) := by
  refine ⟨?_, ?_, ?_, ?_, ?_⟩
  · intro t ht hlen
    constructor
    · simp [findProfile, ht, if_pos hlen]
    · simp [findProfile, ht, if_pos hlen]
  · intro t a ht hlen ha halen
    simp [findProfile, ht, if_pos hlen, cliApiTokenProfile, ha, if_pos halen,
      Except.map]
  · intro h name hname
    have hpres : optStringPresent options.apiToken = false := h
    constructor
    · rw [findProfile_eq_noCli _ _ _ _ _ hpres]
      simp [findProfileNoCli, hname]
    · rw [findProfile_eq_noCli _ _ _ _ _ hpres,
        findProfile_eq_noCli _ _ _ _ _ hpres]
      simp [findProfileNoCli, hname]
  · intro h hp sp hsp
    rw [findProfile_eq_noCli _ _ _ _ _ h]
    simp [findProfileNoCli, hp, hsp]
  · intro h hp hs
    rw [findProfile_eq_noCli _ _ _ _ _ h]
    simp [findProfileNoCli, hp, hs]

/-- Witness for C1: with `--account-id a` and `--api-token t` given, the
result is exactly those credentials, whatever the config holds. -/
theorem findProfile_precedence_w :
    findProfile (fun _ => true) (fun _ => .ok [])
      { profiles := [("other", { accountId := "x", apiToken := "y" })] }
      { accountId := some "a", apiToken := some "t" } none
      = .ok (some { accountId := "a", apiToken := "t" }) :=
  (findProfile_precedence (fun _ => true) (fun _ => .ok []) (fun _ => .ok [])
      { profiles := [("other", { accountId := "x", apiToken := "y" })] } {}
      { accountId := some "a", apiToken := some "t" } none none).2.1
    "t" "a" rfl (by decide) rfl (by decide)

/-! ## Claim C4 -/

/-- C4: with no CLI api-token, no CLI profile option, and no script-declared
profile, a config with exactly one profile resolves to that profile whatever
its default flag, and a config with two profiles neither marked default
fails with an error. -/
theorem findProfile_single_or_two (isValid : String → Bool)
    (la : String → Except String (List Account)) (options : CliOptions)
    (script : Option Script)
    (hT : optStringPresent options.apiToken = false)
    (hP : options.profile = none)
    (hS : scriptProfileName script = none) :
    (∀ n p, findProfile isValid la { profiles := [(n, p)] } options script
      = .ok (some p))
    ∧ (∀ n1 p1 n2 p2, p1.default = false → p2.default = false →
        findProfile isValid la { profiles := [(n1, p1), (n2, p2)] } options script
          = .error "Unable to find profile, 2 profiles in config, and 0 marked as default") := by
  constructor
  · intro n p
    rw [findProfile_eq_noCli _ _ _ _ _ hT]
    simp only [findProfileNoCli, hP, hS]
    cases hdef : p.default <;> simp [defaultProfileSelect, hdef]
  · intro n1 p1 n2 p2 h1 h2
    rw [findProfile_eq_noCli _ _ _ _ _ hT]
    simp only [findProfileNoCli, hP, hS]
    simp only [defaultProfileSelect, List.map_cons, List.map_nil, List.filter,
      h1, h2, List.length_cons, List.length_nil]
    norm_num
    rfl

/-- Witness for C4: concrete one-profile and two-profile configs. -/
theorem findProfile_single_or_two_w :
    findProfile (fun _ => true) (fun _ => .ok [])
      { profiles := [("solo", { accountId := "x", apiToken := "y" })] } {} none
      = .ok (some { accountId := "x", apiToken := "y" })
    ∧ findProfile (fun _ => true) (fun _ => .ok [])
      { profiles := [("a", { accountId := "x", apiToken := "y" }),
                     ("b", { accountId := "z", apiToken := "w" })] } {} none
      = .error "Unable to find profile, 2 profiles in config, and 0 marked as default" :=
  ⟨(findProfile_single_or_two (fun _ => true) (fun _ => .ok []) {} none
      rfl rfl rfl).1 "solo" { accountId := "x", apiToken := "y" },
   (findProfile_single_or_two (fun _ => true) (fun _ => .ok []) {} none
      rfl rfl rfl).2 "a" { accountId := "x", apiToken := "y" }
      "b" { accountId := "z", apiToken := "w" } rfl rfl⟩

/-! ## Claim C5 -/

/-- C5: on a text binding, `resolveBinding` errs exactly when the value
contains `${localPort}` with no localPort supplied, or the value after the
localPort substitution contains `${pushId}` with no pushId supplied; with a
localPort supplied the returned value has the placeholder replaced by its
decimal rendering (and `${pushId}` by pushId when that is supplied too). -/
theorem resolveBinding_text_spec (loadAws : String → Except String AwsCredentials)
    (v : String) (localPort : Option Nat) (pushId : Option String) :
    (exceptIsError (resolveBinding loadAws (.text v) localPort pushId) = true ↔
      (localPort = none ∧ strIncludes v "${localPort}" = true)
      ∨ (pushId = none ∧ strIncludes (substLocalPortStep localPort v) "${pushId}" = true))
    ∧ (∀ p q, localPort = some p → pushId = some q →
        resolveBinding loadAws (.text v) localPort pushId
          = .ok (.text (strReplaceFirst (strReplaceFirst v "${localPort}" (toString p))
              "${pushId}" q)))
    ∧ (∀ p, localPort = some p → pushId = none →
        strIncludes (strReplaceFirst v "${localPort}" (toString p)) "${pushId}" = false →
        resolveBinding loadAws (.text v) localPort pushId
          = .ok (.text (strReplaceFirst v "${localPort}" (toString p)))) := by
  refine ⟨?_, ?_, ?_⟩
  · cases localPort with
    | none =>
      by_cases h1 : strIncludes v "${localPort}" = true
      · simp [resolveBinding, h1, exceptIsError]
      · cases pushId with
        | none =>
          by_cases h2 : strIncludes v "${pushId}" = true
          · simp [resolveBinding, resolvePushStep, substLocalPortStep, h1, h2,
              exceptIsError]
          · simp [resolveBinding, resolvePushStep, substLocalPortStep, h1, h2,
              exceptIsError]
        | some q =>
          simp [resolveBinding, resolvePushStep, h1, exceptIsError]
    | some p =>
      cases pushId with
      | none =>
        by_cases h2 : strIncludes (strReplaceFirst v "${localPort}" (toString p))
            "${pushId}" = true
        · simp [resolveBinding, resolvePushStep, substLocalPortStep, h2,
            exceptIsError]
        · simp [resolveBinding, resolvePushStep, substLocalPortStep, h2,
            exceptIsError]
      | some q =>
        simp [resolveBinding, resolvePushStep, exceptIsError]
  · rintro p q rfl rfl
    simp [resolveBinding, resolvePushStep]
  · rintro p rfl rfl h
    simp [resolveBinding, resolvePushStep, h]

/-- Witness for C5: `${localPort}` in `a${localPort}b` is replaced by the
decimal rendering of 8080. -/
theorem resolveBinding_text_spec_w :
    resolveBinding (fun _ => .error "no aws") (.text "a${localPort}b")
      (some 8080) (some "p1")
      = .ok (.text "a8080b") :=
  (resolveBinding_text_spec (fun _ => .error "no aws") "a${localPort}b"
      (some 8080) (some "p1")).2.1 8080 "p1" rfl rfl

/-! ## Claim C9: lemmas about first-occurrence replacement -/

theorem isPrefixList_self_append (pat x : List Char) :
    isPrefixList pat (pat ++ x) = true := by
  induction pat with
  | nil => rfl
  | cons p ps ih => simp [isPrefixList, ih]

theorem isPrefixList_append_of {pat l : List Char} (u : List Char)
    (h : isPrefixList pat l = true) : isPrefixList pat (l ++ u) = true := by
  induction pat generalizing l with
  | nil => rfl
  | cons p ps ih =>
    cases l with
    | nil => simp [isPrefixList] at h
    | cons c cs =>
      simp only [isPrefixList, Bool.and_eq_true] at h
      simp only [List.cons_append, isPrefixList, Bool.and_eq_true]
      exact ⟨h.1, ih h.2⟩

theorem isPrefixList_eq_append {pat l : List Char} (h : isPrefixList pat l = true) :
    l = pat ++ l.drop pat.length := by
  induction pat generalizing l with
  | nil => simp
  | cons p ps ih =>
    cases l with
    | nil => simp [isPrefixList] at h
    | cons c cs =>
      simp only [isPrefixList, Bool.and_eq_true, beq_iff_eq] at h
      obtain ⟨hpc, htail⟩ := h
      subst hpc
      simpa [List.drop_succ_cons] using congrArg (fun t => p :: t) (ih htail)

theorem containsSubstr_nil_pat (l : List Char) : containsSubstr [] l = true := by
  cases l <;> simp [containsSubstr, isPrefixList, List.isEmpty]

theorem containsSubstr_append_right (pat x t : List Char)
    (h : containsSubstr pat t = true) : containsSubstr pat (x ++ t) = true := by
  induction x with
  | nil => simpa using h
  | cons c cs ih =>
    simp only [List.cons_append, containsSubstr, Bool.or_eq_true]
    exact Or.inr ih

theorem containsSubstr_append_left (pat t u : List Char)
    (h : containsSubstr pat t = true) : containsSubstr pat (t ++ u) = true := by
  induction t with
  | nil =>
    have hpat : pat = [] := by
      simpa [containsSubstr, List.isEmpty_iff] using h
    subst hpat
    exact containsSubstr_nil_pat u
  | cons c cs ih =>
    simp only [containsSubstr, Bool.or_eq_true] at h
    simp only [List.cons_append, containsSubstr, Bool.or_eq_true]
    rcases h with h | h
    · exact Or.inl (by simpa [List.cons_append] using isPrefixList_append_of u h)
    · exact Or.inr (ih h)

theorem containsSubstr_self_append (pat b : List Char) :
    containsSubstr pat (pat ++ b) = true := by
  cases pat with
  | nil => exact containsSubstr_nil_pat _
  | cons p ps =>
    simp only [List.cons_append, containsSubstr, Bool.or_eq_true]
    exact Or.inl (by simpa [List.cons_append] using
      isPrefixList_self_append (p :: ps) b)

/-- `replaceFirstList` replaces exactly the first occurrence: a list
containing the pattern splits as `a ++ pat ++ b` with `a` of minimal length,
and the result is `a ++ rep ++ b`. -/
theorem replaceFirstList_decomp (pat rep l : List Char)
    (h : containsSubstr pat l = true) :
    ∃ a b, l = a ++ pat ++ b ∧ replaceFirstList pat rep l = a ++ rep ++ b
      ∧ ∀ a2 b2, l = a2 ++ pat ++ b2 → a.length ≤ a2.length := by
  induction l with
  | nil =>
    have hpat : pat = [] := by
      simpa [containsSubstr, List.isEmpty_iff] using h
    subst hpat
    exact ⟨[], [], rfl, by simp [replaceFirstList, isPrefixList],
      fun a2 b2 _ => Nat.zero_le _⟩
  | cons c cs ih =>
    by_cases hpre : isPrefixList pat (c :: cs) = true
    · refine ⟨[], (c :: cs).drop pat.length, ?_, ?_, fun a2 b2 _ => Nat.zero_le _⟩
      · simpa using isPrefixList_eq_append hpre
      · simp [replaceFirstList, hpre]
    · have hcs : containsSubstr pat cs = true := by
        simp only [containsSubstr, Bool.or_eq_true] at h
        rcases h with h | h
        · exact absurd h hpre
        · exact h
      obtain ⟨a, b, heq, hrep, hmin⟩ := ih hcs
      refine ⟨c :: a, b, ?_, ?_, ?_⟩
      · simp [heq]
      · simp [replaceFirstList, hpre, hrep]
      · intro a2 b2 h2
        cases a2 with
        | nil =>
          exfalso
          apply hpre
          simp only [List.nil_append] at h2
          rw [h2]
          exact isPrefixList_self_append pat b2
        | cons c2 a2t =>
          have h3 : cs = a2t ++ pat ++ b2 := by
            simpa [List.cons_append] using congrArg List.tail h2
          simpa using Nat.succ_le_succ (hmin a2t b2 h3)

/-- An occurrence of the pattern after a later split point survives in the
tail of the minimal decomposition. -/
theorem containsSubstr_suffix_transfer {pat l A B a b : List Char}
    (hA : l = A ++ pat ++ B) (ha : l = a ++ pat ++ b)
    (hle : a.length ≤ A.length) (hB : containsSubstr pat B = true) :
    containsSubstr pat b = true := by
  have hb : l.drop ((a ++ pat).length) = b := by
    rw [ha]
    exact List.drop_left _ _
  have hBd : l.drop ((A ++ pat).length) = B := by
    rw [hA]
    exact List.drop_left _ _
  have hlen : (a ++ pat).length ≤ (A ++ pat).length := by
    simp only [List.length_append]
    omega
  have hBb : b.drop ((A ++ pat).length - (a ++ pat).length) = B := by
    rw [← hb, List.drop_drop, Nat.add_sub_cancel' hlen]
    exact hBd
  have : b = b.take ((A ++ pat).length - (a ++ pat).length) ++ B := by
    rw [← hBb]
    exact (List.take_append_drop _ _).symm
  rw [this]
  exact containsSubstr_append_right _ _ _ hB

theorem strToList_mk (l : List Char) : (String.mk l).toList = l := rfl

/-- C9: with a supplied localPort (resp. pushId), `resolveBinding`
substitutes only the first occurrence of the placeholder: splitting the
value around one occurrence whose tail holds another occurrence, the result
splits around the substituted rendering with the later occurrence still
present, verbatim, in the tail. -/
theorem resolveBinding_first_occurrence_only
    (loadAws : String → Except String AwsCredentials)
    (a b c d : List Char) (p : Nat) (q : String)
    (hb : containsSubstr ("${localPort}".toList) b = true)
    (hnp : strIncludes (strReplaceFirst (String.mk (a ++ "${localPort}".toList ++ b))
        "${localPort}" (toString p)) "${pushId}" = false)
    (hd : containsSubstr ("${pushId}".toList) d = true)
    (hnl : strIncludes (String.mk (c ++ "${pushId}".toList ++ d)) "${localPort}" = false) :
    (∃ a2 b2,
      resolveBinding loadAws (.text (String.mk (a ++ "${localPort}".toList ++ b)))
          (some p) none
        = .ok (.text (String.mk (a2 ++ (toString p).toList ++ b2)))
      ∧ containsSubstr ("${localPort}".toList) b2 = true)
    ∧ (∃ c2 d2,
      resolveBinding loadAws (.text (String.mk (c ++ "${pushId}".toList ++ d)))
          none (some q)
        = .ok (.text (String.mk (c2 ++ q.toList ++ d2)))
      ∧ containsSubstr ("${pushId}".toList) d2 = true) := by
  constructor
  · obtain ⟨a2, b2, heq, hrep, hmin⟩ :=
      replaceFirstList_decomp ("${localPort}".toList) ((toString p).toList)
        (a ++ "${localPort}".toList ++ b)
        (by
          rw [List.append_assoc]
          exact containsSubstr_append_right _ _ _ (containsSubstr_self_append _ _))
    have hval : strReplaceFirst (String.mk (a ++ "${localPort}".toList ++ b))
        "${localPort}" (toString p) = String.mk (a2 ++ (toString p).toList ++ b2) := by
      simp only [strReplaceFirst, strToList_mk]
      rw [hrep]
    rw [hval] at hnp
    refine ⟨a2, b2, ?_, containsSubstr_suffix_transfer rfl heq (hmin a b rfl) hb⟩
    simp only [resolveBinding, resolvePushStep, hval, hnp]
    simp
  · obtain ⟨c2, d2, heq, hrep, hmin⟩ :=
      replaceFirstList_decomp ("${pushId}".toList) (q.toList)
        (c ++ "${pushId}".toList ++ d)
        (by
          rw [List.append_assoc]
          exact containsSubstr_append_right _ _ _ (containsSubstr_self_append _ _))
    have hval : strReplaceFirst (String.mk (c ++ "${pushId}".toList ++ d))
        "${pushId}" q = String.mk (c2 ++ q.toList ++ d2) := by
      simp only [strReplaceFirst, strToList_mk]
      rw [hrep]
    refine ⟨c2, d2, ?_, containsSubstr_suffix_transfer rfl heq (hmin c d rfl) hd⟩
    simp only [resolveBinding, resolvePushStep, hnl, hval]
    simp

/-- Witness for C9: `${localPort}${localPort}` with port 9 and
`${pushId}${pushId}` with pushId `z` each keep their second occurrence. -/
theorem resolveBinding_first_occurrence_only_w :
    (∃ a2 b2,
      resolveBinding (fun _ => .error "no aws")
          (.text (String.mk ([] ++ "${localPort}".toList ++ "${localPort}".toList)))
          (some 9) none
        = .ok (.text (String.mk (a2 ++ (toString 9).toList ++ b2)))
      ∧ containsSubstr ("${localPort}".toList) b2 = true)
    ∧ (∃ c2 d2,
      resolveBinding (fun _ => .error "no aws")
          (.text (String.mk ([] ++ "${pushId}".toList ++ "${pushId}".toList)))
          none (some "z")
        = .ok (.text (String.mk (c2 ++ "z".toList ++ d2)))
      ∧ containsSubstr ("${pushId}".toList) d2 = true) :=
  resolveBinding_first_occurrence_only (fun _ => .error "no aws")
    [] ("${localPort}".toList) [] ("${pushId}".toList) 9 "z"
    (by decide) (by decide) (by decide) (by decide)

/-! ## Claims C2 and C3: the tailweb fetch handler -/

/-- C2 (evidence): on a `/fetch/` request whose reconstructed URL has an
origin other than `https://api.cloudflare.com`, the handler executes
`throw new Response(..., { status: 400 })`: the status-400 response is
thrown as an exception rather than returned to the client. -/
theorem tailwebFetch_nonCloudflare_throws :
    tailwebFetch demoParseUrl
      { pathname := "/fetch/evil.com/x", method := "GET", headers := [],
        cfConnectingIp := none }
      = .thrownResponse 400 "Unable to fetch https://evil.com/x" := by
  decide

/-- C3: on a proxied `/fetch/` request (origin `https://api.cloudflare.com`),
the upstream call uses the incoming method and exactly the incoming headers
minus those whose name starts with `cf-`: the forwarded list is the filter
of the incoming list, and membership in it is membership in the incoming
list plus not bearing the `cf-` prefix. -/
theorem tailwebFetch_proxy_headers (parseUrl : String → Option UrlInfo)
    (req : RequestIn) (u : UrlInfo)
    (hp : strStartsWith req.pathname "/fetch/" = true)
    (hu : parseUrl ("https://" ++ strDropChars req.pathname 7) = some u)
    (ho : u.origin = "https://api.cloudflare.com") :
    tailwebFetch parseUrl req
      = .proxied ("https://" ++ strDropChars req.pathname 7) req.method
          (req.headers.filter fun v => !(strStartsWith v.fst "cf-"))
    ∧ ∀ h, h ∈ (req.headers.filter fun v => !(strStartsWith v.fst "cf-")) ↔
        (h ∈ req.headers ∧ strStartsWith h.fst "cf-" = false) := by
  have h1 : ¬ req.pathname = "/" := by
    intro h
    rw [h] at hp
    exact absurd hp (by decide)
  have h2 : ¬ req.pathname = "/app.js" := by
    intro h
    rw [h] at hp
    exact absurd hp (by decide)
  constructor
  · simp only [tailwebFetch, if_neg h1, if_neg h2, hp, if_pos, hu, ho]
  · intro h
    simp [List.mem_filter]

/-- Witness for C3: a request with one `cf-` header and one other header is
proxied with only the other header. -/
theorem tailwebFetch_proxy_headers_w :
    tailwebFetch demoParseUrl
      { pathname := "/fetch/api.cloudflare.com/client/v4/accounts",
        method := "GET",
        headers := [("cf-connecting-ip", "1.2.3.4"), ("authorization", "Bearer x")],
        cfConnectingIp := some "1.2.3.4" }
      = .proxied "https://api.cloudflare.com/client/v4/accounts" "GET"
          [("authorization", "Bearer x")]
    ∧ ∀ h, h ∈ [(("authorization" : String), ("Bearer x" : String))] ↔
        (h ∈ [(("cf-connecting-ip" : String), ("1.2.3.4" : String)),
              (("authorization" : String), ("Bearer x" : String))]
          ∧ strStartsWith h.fst "cf-" = false) :=
  tailwebFetch_proxy_headers demoParseUrl
    { pathname := "/fetch/api.cloudflare.com/client/v4/accounts",
      method := "GET",
      headers := [("cf-connecting-ip", "1.2.3.4"), ("authorization", "Bearer x")],
      cfConnectingIp := some "1.2.3.4" }
    { origin := "https://api.cloudflare.com",
      href := "https://api.cloudflare.com/client/v4/accounts" }
    (by decide) (by decide) rfl

/-! ## Claim C6 -/

/-- C6: `loadConfig` consults `CF_ACCOUNT_ID` / `CF_API_TOKEN` only when the
loaded config has zero profiles: with at least one profile the result is the
loaded config unchanged whatever the environment holds; with zero profiles
and both variables non-empty after trimming, the result gains the single
`env` profile carrying the trimmed values. -/
theorem loadConfig_env_usage (env env2 : String → Except DenoError (Option String))
    (c : Config) :
    (c.profiles ≠ [] →
      loadConfig env c = .ok c ∧ loadConfig env c = loadConfig env2 c)
    ∧ (∀ a t, c.profiles = [] →
        env "CF_ACCOUNT_ID" = .ok a → env "CF_API_TOKEN" = .ok t →
        0 < (trimChars (a.getD "")).length → 0 < (trimChars (t.getD "")).length →
        loadConfig env c = .ok { c with profiles :=
          [("env", { accountId := trimChars (a.getD ""),
                     apiToken := trimChars (t.getD "") })] }) := by
  constructor
  · intro h
    constructor
    · simp [loadConfig, h]
    · simp [loadConfig, h]
  · intro a t hc ha ht hla hlt
    simp [loadConfig, hc, ha, ht, hla, hlt]

/-- Witness for C6: an empty config picks up the trimmed env credentials. -/
theorem loadConfig_env_usage_w :
    loadConfig
      (fun k => if k = "CF_ACCOUNT_ID" then .ok (some " acc ") else .ok (some " tok "))
      { profiles := [] }
      = .ok { profiles := [("env", { accountId := "acc", apiToken := "tok" })] } :=
  (loadConfig_env_usage
      (fun k => if k = "CF_ACCOUNT_ID" then .ok (some " acc ") else .ok (some " tok "))
      (fun _ => .ok none) { profiles := [] }).2
    (some " acc ") (some " tok ") rfl rfl rfl (by decide) (by decide)

/-! ## Claim C8 -/

/-- C8: a `PermissionDenied` raised while reading the two environment
variables (with zero profiles loaded) leaves `loadConfig` returning the
config unchanged, and one raised during the directory walk leaves
`findConfigFilePath` returning `undefined`; every other error from those
reads propagates to the caller. -/
theorem permissionDenied_treated_as_absent
    (env : String → Except DenoError (Option String)) (c : Config)
    (fe : List String → Except DenoError Bool) (cwd : List String) (m : String) :
    (c.profiles = [] → env "CF_ACCOUNT_ID" = .error (.permissionDenied m) →
      loadConfig env c = .ok c)
    ∧ (∀ a, c.profiles = [] → env "CF_ACCOUNT_ID" = .ok a →
        env "CF_API_TOKEN" = .error (.permissionDenied m) →
        loadConfig env c = .ok c)
    ∧ (c.profiles = [] → env "CF_ACCOUNT_ID" = .error (.other m) →
        loadConfig env c = .error (.other m))
    ∧ (∀ a, c.profiles = [] → env "CF_ACCOUNT_ID" = .ok a →
        env "CF_API_TOKEN" = .error (.other m) →
        loadConfig env c = .error (.other m))
    ∧ (findConfigLoop fe cwd = .error (.permissionDenied m) →
        findConfigFilePath fe cwd = .ok none)
    ∧ (findConfigLoop fe cwd = .error (.other m) →
        findConfigFilePath fe cwd = .error (.other m)) := by
  refine ⟨?_, ?_, ?_, ?_, ?_, ?_⟩
  · intro hc ha
    simp [loadConfig, hc, ha]
  · intro a hc ha ht
    simp [loadConfig, hc, ha, ht]
  · intro hc ha
    simp [loadConfig, hc, ha]
  · intro a hc ha ht
    simp [loadConfig, hc, ha, ht]
  · intro h
    simp [findConfigFilePath, h]
  · intro h
    simp [findConfigFilePath, h]

/-- Witness for C8: a permission-denied environment leaves the empty config
alone, and a permission-denied walk yields no config file path. -/
theorem permissionDenied_treated_as_absent_w :
    loadConfig (fun _ => .error (.permissionDenied "env access"))
      { profiles := [] } = .ok { profiles := [] }
    ∧ findConfigFilePath (fun _ => .error (.permissionDenied "read access"))
      ["home"] = .ok none :=
  ⟨(permissionDenied_treated_as_absent
      (fun _ => .error (.permissionDenied "env access")) { profiles := [] }
      (fun _ => .error (.permissionDenied "read access")) ["home"]
      "env access").1 rfl rfl,
   (permissionDenied_treated_as_absent
      (fun _ => .error (.permissionDenied "env access")) { profiles := [] }
      (fun _ => .error (.permissionDenied "read access")) ["home"]
      "read access").2.2.2.2.1 rfl⟩

/-! ## Claim C7 -/

/-- C7 (counterexample): it is not the case that exactly two of the
adapter's public operations always raise a not-implemented error — `put`,
`delete` and `list` all do, so any such set has at least three members. -/
theorem kvOps_not_exactly_two_unimplemented : ¬ exactlyTwoAlwaysUnimplemented := by
  rintro ⟨S, hcard, hmem⟩
  have hput : KvOp.put ∈ S := (hmem KvOp.put).1 (fun _ _ _ => rfl)
  have hdel : KvOp.delete ∈ S := (hmem KvOp.delete).1 (fun _ => rfl)
  have hlist : KvOp.list ∈ S := (hmem KvOp.list).1 (fun _ => rfl)
  have hsub : ({KvOp.put, KvOp.delete, KvOp.list} : Finset KvOp) ⊆ S := by
    intro x hx
    simp only [Finset.mem_insert, Finset.mem_singleton] at hx
    rcases hx with rfl | rfl | rfl
    · exact hput
    · exact hdel
    · exact hlist
  have h3 : ({KvOp.put, KvOp.delete, KvOp.list} : Finset KvOp).card = 3 := rfl
  have := Finset.card_le_card hsub
  omega

/-- C7 (amended): exactly three of the five public operations — `put`,
`delete` and `list` — raise a not-implemented error on every input, while
`get` and `getWithMetadata` succeed for some inputs. -/
theorem kvOps_exactly_three_unimplemented (op : KvOp) :
    alwaysUnimplemented op ↔
      (op = KvOp.put ∨ op = KvOp.delete ∨ op = KvOp.list) := by
  cases op with
  | get =>
    constructor
    · intro h
      have := h (fun _ => some []) "k" (some { type := KvType.arrayBuffer })
      exact absurd this (by decide)
    · rintro (h | h | h) <;> exact KvOp.noConfusion h
  | getWithMetadata =>
    constructor
    · intro h
      have := h (fun _ => some []) (fun _ => none) "k"
        (some { type := KvType.arrayBuffer })
      exact absurd this (by decide)
    · rintro (h | h | h) <;> exact KvOp.noConfusion h
  | put =>
    exact ⟨fun _ => Or.inl rfl, fun _ _ _ _ => rfl⟩
  | delete =>
    exact ⟨fun _ => Or.inr (Or.inl rfl), fun _ _ => rfl⟩
  | list =>
    exact ⟨fun _ => Or.inr (Or.inr rfl), fun _ _ => rfl⟩

/-- Witness for C7's amended claim: `put` is always unimplemented. -/
theorem kvOps_exactly_three_unimplemented_w : alwaysUnimplemented KvOp.put :=
  (kvOps_exactly_three_unimplemented KvOp.put).2 (Or.inl rfl)

/-! ## Claim C10 -/

/-- C10: an absent key yields `null` from both `get` and `getWithMetadata`
whatever the type option; a present key yields a not-implemented error
exactly when the type option is neither `arrayBuffer` nor `json` — in
particular always when the options are omitted (declared default `text`). -/
theorem kvGet_null_and_dispatch (gkv : String → Option (List Nat))
    (gkm : String → Option String) (key : String) :
    (∀ opts, gkv key = none →
      kvGet gkv key opts = .ok none
      ∧ kvGetWithMetadata gkv gkm key opts = .ok none)
    ∧ (∀ bytes opts, gkv key = some bytes →
        (isUnimplementedError (kvGet gkv key opts) = true ↔
          ¬(opts = some { type := KvType.arrayBuffer }
            ∨ opts = some { type := KvType.json }))
        ∧ (isUnimplementedError (kvGetWithMetadata gkv gkm key opts) = true ↔
          ¬(opts = some { type := KvType.arrayBuffer }
            ∨ opts = some { type := KvType.json })))
    ∧ (∀ bytes, gkv key = some bytes →
        isUnimplementedError (kvGet gkv key none) = true
        ∧ isUnimplementedError (kvGetWithMetadata gkv gkm key none) = true) := by
  have hmsg1 : strIncludes ("ApiKVNamespace.get not implemented. key=string " ++ key)
      "not implemented." = true := by
    apply containsSubstr_append_left
    decide
  have hmsg2 : strIncludes ("ApiKVNamespace.getWithMetadata not implemented. key=" ++ key)
      "not implemented." = true := by
    apply containsSubstr_append_left
    decide
  refine ⟨?_, ?_, ?_⟩
  · intro opts h
    constructor
    · simp [kvGet, h]
    · simp [kvGetWithMetadata, h]
  · intro bytes opts h
    constructor
    · match opts with
      | none => simpa [kvGet, h, isUnimplementedError] using hmsg1
      | some { type := KvType.text } =>
        simpa [kvGet, h, isUnimplementedError] using hmsg1
      | some { type := KvType.stream } =>
        simpa [kvGet, h, isUnimplementedError] using hmsg1
      | some { type := KvType.arrayBuffer } =>
        simp [kvGet, h, isUnimplementedError]
      | some { type := KvType.json } =>
        simp [kvGet, h, isUnimplementedError]
    · match opts with
      | none => simpa [kvGetWithMetadata, h, isUnimplementedError] using hmsg2
      | some { type := KvType.text } =>
        simpa [kvGetWithMetadata, h, isUnimplementedError] using hmsg2
      | some { type := KvType.stream } =>
        simpa [kvGetWithMetadata, h, isUnimplementedError] using hmsg2
      | some { type := KvType.arrayBuffer } =>
        simp [kvGetWithMetadata, h, isUnimplementedError]
      | some { type := KvType.json } =>
        simp [kvGetWithMetadata, h, isUnimplementedError]
  · intro bytes h
    constructor
    · simpa [kvGet, h, isUnimplementedError] using hmsg1
    · simpa [kvGetWithMetadata, h, isUnimplementedError] using hmsg2

/-- Witness for C10: over a one-key upstream store, the absent key is `null`
for every type, and the present key with omitted options raises the
not-implemented error. -/
theorem kvGet_null_and_dispatch_w :
    (kvGet (fun k => if k = "hit" then some [1, 2] else none) "miss"
        (some { type := KvType.text }) = .ok none
      ∧ kvGetWithMetadata (fun k => if k = "hit" then some [1, 2] else none)
        (fun _ => none) "miss" (some { type := KvType.text }) = .ok none)
    ∧ (isUnimplementedError
        (kvGet (fun k => if k = "hit" then some [1, 2] else none) "hit" none) = true
      ∧ isUnimplementedError
        (kvGetWithMetadata (fun k => if k = "hit" then some [1, 2] else none)
          (fun _ => none) "hit" none) = true) :=
  ⟨(kvGet_null_and_dispatch (fun k => if k = "hit" then some [1, 2] else none)
      (fun _ => none) "miss").1 (some { type := KvType.text }) rfl,
   (kvGet_null_and_dispatch (fun k => if k = "hit" then some [1, 2] else none)
      (fun _ => none) "hit").2.2 [1, 2] rfl⟩

end Denoflare
